import Mathlib

/-!
Verification development for the MongoDB persistence layer of a trading
platform (`vnpy/trader/database/database_mongo.py`).

The module under study converts domain `BarData` / `TickData` records to and
from storage documents and implements the persistence operations
(`load_bar_data`, `save_bar_data`, `load_tick_data`, `save_tick_data`,
`get_newest_bar_data`, `get_oldest_bar_data`, `get_newest_tick_data`,
`get_bar_data_statistics`, `delete_bar_data`, `clean`) of `MongoManager`.

Embedding conventions:
* Timestamps (`datetime`) are embedded as `Int`; the code only compares them.
* Numeric fields (prices, volumes) are embedded as `Int`; the code moves them
  opaquely and only tests Python truthiness (zero / non-zero) on one of them.
* The MongoDB database is a list of named collections of bar documents plus
  the single mongoengine class collection `db_tick_data` holding the tick
  documents (mongoengine `Document` subclasses map to one collection named
  after the class; no tick operation in the module ever derives a
  per-symbol collection).
* A MongoDB `find` filter whose comparison document contains an operator key
  the query language does not know (for instance the module's `$let`) makes
  the server answer with an `OperationFailure`; this is embedded by `colFind`
  returning `Except.error`.
* A pymongo `Cursor` defines neither `__bool__` nor `__len__`, so Python
  truthiness of a cursor is the object default `True`; indexing an exhausted
  cursor raises `IndexError`.  This is embedded by `Cursor.toBool` and
  `Cursor.getitem`.
* Fallible Python code (raised exceptions) is embedded with `Except` /
  `Option` results.
-/

namespace Vnpy

-- Equality of embedded Python results (exceptions included) is decidable.
deriving instance DecidableEq for Except

/-- Python `s.lower()` (kernel-reducible model: ASCII lower-casing of the
character data). -/
def pyLower (s : String) : String := ⟨s.data.map Char.toLower⟩

/-- Python `s.upper()` (kernel-reducible model). -/
def pyUpper (s : String) : String := ⟨s.data.map Char.toUpper⟩

/-- Python `s.startswith(p)` (kernel-reducible model). -/
def pyStartsWith (p s : String) : Bool := p.data.isPrefixOf s.data

/-- Worker for `pySplit`. -/
def pySplitAux (sep : Char) : List Char → List Char → List String
  | [], acc => [⟨acc.reverse⟩]
  | c :: cs, acc => if c == sep then ⟨acc.reverse⟩ :: pySplitAux sep cs []
                    else pySplitAux sep cs (c :: acc)

/-- Python `s.split(sep)` for a one-character separator (kernel-reducible
model). -/
def pySplit (sep : Char) (s : String) : List String := pySplitAux sep s.data []

/-- Modelled from the spec: `Exchange` is the enumerated venue code of §3
(the definition lives in `vnpy/trader/constant.py`, outside the sources at
hand).  Each member carries its canonical upper-case string code as `value`;
being an enumeration and not a string, it offers no string methods. -/
inductive Exchange where
  | CFFEX
  | SSE
  | SZSE
  | NASDAQ
  | NYSE
  | SMART
  | LOCAL
deriving DecidableEq

/-- The canonical string code of a venue (Python `exchange.value`). -/
def Exchange.value : Exchange → String
  | .CFFEX => "CFFEX"
  | .SSE => "SSE"
  | .SZSE => "SZSE"
  | .NASDAQ => "NASDAQ"
  | .NYSE => "NYSE"
  | .SMART => "SMART"
  | .LOCAL => "LOCAL"

/-- Python `Exchange(code)`: decode a string code back to the enumeration;
an unrecognised code raises `ValueError`, embedded as `none`. -/
def Exchange.ofValue : String → Option Exchange
  | "CFFEX" => some .CFFEX
  | "SSE" => some .SSE
  | "SZSE" => some .SZSE
  | "NASDAQ" => some .NASDAQ
  | "NYSE" => some .NYSE
  | "SMART" => some .SMART
  | "LOCAL" => some .LOCAL
  | _ => none

/-- Modelled from the spec: `Exchange` is an enumeration (§3: "enumerated
venue code"), so Python attribute access `exchange.lower` — which
`MongoManager.save_bar_data` performs on `data_list[0].exchange` — finds no
such attribute and raises `AttributeError`.  (Every other operation of the
module lower-cases `exchange.value`, the string code, instead.) -/
def Exchange.lower (_ : Exchange) : Except String String :=
  .error "AttributeError: Exchange object has no attribute lower"

/-- Modelled from the spec: `Interval` is the enumerated bar period of §3
("minute/hour/day"), defined in `vnpy/trader/constant.py`; each member
carries its canonical string code as `value`. -/
inductive Interval where
  | MINUTE
  | HOUR
  | DAILY
  | WEEKLY
deriving DecidableEq

/-- The canonical string code of a bar period (Python `interval.value`). -/
def Interval.value : Interval → String
  | .MINUTE => "1m"
  | .HOUR => "1h"
  | .DAILY => "d"
  | .WEEKLY => "w"

/-- Python `Interval(code)`; an unrecognised code raises `ValueError`,
embedded as `none`. -/
def Interval.ofValue : String → Option Interval
  | "1m" => some .MINUTE
  | "1h" => some .HOUR
  | "d" => some .DAILY
  | "w" => some .WEEKLY
  | _ => none

/-- Modelled from the spec: the domain bar record of §3 (defined in
`vnpy/trader/object.py`), with `gateway_name` as carried by every vnpy data
record.  The derived `vt_symbol` field is recomputed from `symbol` and
`exchange` on construction and is therefore omitted. -/
structure BarData where
  symbol : String
  exchange : Exchange
  datetime : Int
  interval : Interval
  volume : Int
  open_interest : Int
  open_price : Int
  high_price : Int
  low_price : Int
  close_price : Int
  gateway_name : String
deriving DecidableEq

/-- Modelled from the spec: the domain tick record of §3 (defined in
`vnpy/trader/object.py`): top-of-book fields plus the five-level bid/ask
ladders, with `gateway_name` as carried by every vnpy data record.  Unset
ladder levels default to `0`.  The derived `vt_symbol` field is recomputed
from `symbol` and `exchange` on construction and is therefore omitted. -/
structure TickData where
  symbol : String
  exchange : Exchange
  datetime : Int
  name : String
  volume : Int
  open_interest : Int
  last_price : Int
  last_volume : Int
  limit_up : Int
  limit_down : Int
  open_price : Int
  high_price : Int
  low_price : Int
  pre_close : Int
  bid_price_1 : Int
  bid_price_2 : Int
  bid_price_3 : Int
  bid_price_4 : Int
  bid_price_5 : Int
  ask_price_1 : Int
  ask_price_2 : Int
  ask_price_3 : Int
  ask_price_4 : Int
  ask_price_5 : Int
  bid_volume_1 : Int
  bid_volume_2 : Int
  bid_volume_3 : Int
  bid_volume_4 : Int
  bid_volume_5 : Int
  ask_volume_1 : Int
  ask_volume_2 : Int
  ask_volume_3 : Int
  ask_volume_4 : Int
  ask_volume_5 : Int
  gateway_name : String
deriving DecidableEq

/-- The storage document shape written by the module-level `from_bar` and
read by the module-level `to_bar`: a plain dict with exactly these keys. -/
structure BarDoc where
  datetime : Int
  «open» : Int
  close : Int
  high : Int
  low : Int
  volume : Int
  open_interest : Int
  period : String
  symbol : String
  ex : String
deriving DecidableEq

/-- `to_bar(ex, s, o)` (module level): decode one bar document.  The venue is
rebuilt with `Exchange(ex.upper())` and the period with
`Interval(o['period'])`; an unrecognised code raises `ValueError`, embedded
as `Except.error`.  `gateway_name` is the constant `"DB"`. -/
def to_bar (ex s : String) (o : BarDoc) : Except String BarData :=
  match Exchange.ofValue (pyUpper ex) with
  | none => .error "ValueError: not a valid Exchange"
  | some exch =>
    match Interval.ofValue o.period with
    | none => .error "ValueError: not a valid Interval"
    | some itv =>
      .ok { symbol := s
            exchange := exch
            datetime := o.datetime
            interval := itv
            volume := o.volume
            open_interest := o.open_interest
            open_price := o.«open»
            high_price := o.high
            low_price := o.low
            close_price := o.close
            gateway_name := "DB" }

/-- `from_bar(ex, s, data)` (module level): encode one bar into the dict
inserted into the partition collection. -/
def from_bar (ex s : String) (data : BarData) : BarDoc :=
  { datetime := data.datetime
    «open» := data.open_price
    close := data.close_price
    high := data.high_price
    low := data.low_price
    volume := data.volume
    open_interest := data.open_interest
    period := data.interval.value
    symbol := s
    ex := ex }

/-- The mongoengine document class `DbBarData`; a mongoengine field an
instance never assigned is unset (`None`), embedded as `none`. -/
structure DbBarData where
  symbol : Option String
  exchange : Option String
  datetime : Option Int
  interval : Option String
  volume : Option Int
  open_interest : Option Int
  open_price : Option Int
  high_price : Option Int
  low_price : Option Int
  close_price : Option Int
deriving DecidableEq

/-- `DbBarData.from_bar`: copy every bar field into a fresh document,
encoding the enumerations by their string codes. -/
def DbBarData.from_bar (bar : BarData) : DbBarData :=
  { symbol := some bar.symbol
    exchange := some bar.exchange.value
    datetime := some bar.datetime
    interval := some bar.interval.value
    volume := some bar.volume
    open_interest := some bar.open_interest
    open_price := some bar.open_price
    high_price := some bar.high_price
    low_price := some bar.low_price
    close_price := some bar.close_price }

/-- `DbBarData.to_bar`: rebuild a `BarData` from a stored document with
`gateway_name="DB"`.  The decode is defined on documents that carry every
field the encoder writes (as all documents the module writes do); a missing
field or unrecognised code is embedded as `none`. -/
def DbBarData.to_bar (d : DbBarData) : Option BarData :=
  match d.symbol, d.exchange, d.datetime, d.interval, d.volume,
        d.open_interest, d.open_price, d.high_price, d.low_price,
        d.close_price with
  | some symbol, some exs, some datetime, some ivs, some volume,
    some open_interest, some open_price, some high_price, some low_price,
    some close_price =>
    match Exchange.ofValue exs, Interval.ofValue ivs with
    | some exchange, some interval =>
      some { symbol, exchange, datetime, interval, volume, open_interest,
             open_price, high_price, low_price, close_price,
             gateway_name := "DB" }
    | _, _ => none
  | _, _, _, _, _, _, _, _, _, _ => none

/-- The mongoengine document class `DbTickData`; a field an instance was
never assigned is unset (`None`), embedded as `none`.  `close_price` is
declared on the class but no code path of the module ever assigns it. -/
structure DbTickData where
  symbol : Option String
  exchange : Option String
  datetime : Option Int
  name : Option String
  volume : Option Int
  open_interest : Option Int
  last_price : Option Int
  last_volume : Option Int
  limit_up : Option Int
  limit_down : Option Int
  open_price : Option Int
  high_price : Option Int
  low_price : Option Int
  close_price : Option Int
  pre_close : Option Int
  bid_price_1 : Option Int
  bid_price_2 : Option Int
  bid_price_3 : Option Int
  bid_price_4 : Option Int
  bid_price_5 : Option Int
  ask_price_1 : Option Int
  ask_price_2 : Option Int
  ask_price_3 : Option Int
  ask_price_4 : Option Int
  ask_price_5 : Option Int
  bid_volume_1 : Option Int
  bid_volume_2 : Option Int
  bid_volume_3 : Option Int
  bid_volume_4 : Option Int
  bid_volume_5 : Option Int
  ask_volume_1 : Option Int
  ask_volume_2 : Option Int
  ask_volume_3 : Option Int
  ask_volume_4 : Option Int
  ask_volume_5 : Option Int
deriving DecidableEq

/-- The all-unset document `DbTickData()` freshly constructed. -/
def DbTickData.empty : DbTickData :=
  { symbol := none, exchange := none, datetime := none, name := none
    volume := none, open_interest := none, last_price := none
    last_volume := none, limit_up := none, limit_down := none
    open_price := none, high_price := none, low_price := none
    close_price := none, pre_close := none
    bid_price_1 := none, bid_price_2 := none, bid_price_3 := none
    bid_price_4 := none, bid_price_5 := none
    ask_price_1 := none, ask_price_2 := none, ask_price_3 := none
    ask_price_4 := none, ask_price_5 := none
    bid_volume_1 := none, bid_volume_2 := none, bid_volume_3 := none
    bid_volume_4 := none, bid_volume_5 := none
    ask_volume_1 := none, ask_volume_2 := none, ask_volume_3 := none
    ask_volume_4 := none, ask_volume_5 := none }

/-- `DbTickData.from_tick`: copy the top-of-book fields unconditionally and
the level 2–5 ladders only when Python `if tick.bid_price_2:` is truthy,
i.e. the level-2 bid price is non-zero.  `close_price` is never assigned. -/
def DbTickData.from_tick (tick : TickData) : DbTickData :=
  let base : DbTickData :=
    { DbTickData.empty with
      symbol := some tick.symbol
      exchange := some tick.exchange.value
      datetime := some tick.datetime
      name := some tick.name
      volume := some tick.volume
      open_interest := some tick.open_interest
      last_price := some tick.last_price
      last_volume := some tick.last_volume
      limit_up := some tick.limit_up
      limit_down := some tick.limit_down
      open_price := some tick.open_price
      high_price := some tick.high_price
      low_price := some tick.low_price
      pre_close := some tick.pre_close
      bid_price_1 := some tick.bid_price_1
      ask_price_1 := some tick.ask_price_1
      bid_volume_1 := some tick.bid_volume_1
      ask_volume_1 := some tick.ask_volume_1 }
  if tick.bid_price_2 ≠ 0 then
    { base with
      bid_price_2 := some tick.bid_price_2
      bid_price_3 := some tick.bid_price_3
      bid_price_4 := some tick.bid_price_4
      bid_price_5 := some tick.bid_price_5
      ask_price_2 := some tick.ask_price_2
      ask_price_3 := some tick.ask_price_3
      ask_price_4 := some tick.ask_price_4
      ask_price_5 := some tick.ask_price_5
      bid_volume_2 := some tick.bid_volume_2
      bid_volume_3 := some tick.bid_volume_3
      bid_volume_4 := some tick.bid_volume_4
      bid_volume_5 := some tick.bid_volume_5
      ask_volume_2 := some tick.ask_volume_2
      ask_volume_3 := some tick.ask_volume_3
      ask_volume_4 := some tick.ask_volume_4
      ask_volume_5 := some tick.ask_volume_5 }
  else base

/-- `DbTickData.to_tick`: rebuild a `TickData` with `gateway_name="DB"` and
default (`0`) level 2–5 ladders; when Python `if self.bid_price_2:` is
truthy (the stored level-2 bid price is present and non-zero) assign all of
levels 2–5 from the document.  The decode is defined on documents that carry
the fields it reads (as all documents the module writes do); a missing field
or unrecognised venue code is embedded as `none`. -/
def DbTickData.to_tick (d : DbTickData) : Option TickData :=
  match d.symbol, d.exchange, d.datetime, d.name, d.volume, d.open_interest,
        d.last_price, d.last_volume, d.limit_up, d.limit_down, d.open_price,
        d.high_price, d.low_price, d.pre_close, d.bid_price_1, d.ask_price_1,
        d.bid_volume_1, d.ask_volume_1 with
  | some symbol, some exs, some datetime, some name, some volume,
    some open_interest, some last_price, some last_volume, some limit_up,
    some limit_down, some open_price, some high_price, some low_price,
    some pre_close, some bid_price_1, some ask_price_1, some bid_volume_1,
    some ask_volume_1 =>
    match Exchange.ofValue exs with
    | none => none
    | some exchange =>
      let tick : TickData :=
        { symbol, exchange, datetime, name, volume, open_interest,
          last_price, last_volume, limit_up, limit_down, open_price,
          high_price, low_price, pre_close, bid_price_1, ask_price_1,
          bid_volume_1, ask_volume_1
          bid_price_2 := 0, bid_price_3 := 0, bid_price_4 := 0
          bid_price_5 := 0
          ask_price_2 := 0, ask_price_3 := 0, ask_price_4 := 0
          ask_price_5 := 0
          bid_volume_2 := 0, bid_volume_3 := 0, bid_volume_4 := 0
          bid_volume_5 := 0
          ask_volume_2 := 0, ask_volume_3 := 0, ask_volume_4 := 0
          ask_volume_5 := 0
          gateway_name := "DB" }
      if d.bid_price_2.getD 0 ≠ 0 then
        match d.bid_price_2, d.bid_price_3, d.bid_price_4, d.bid_price_5,
              d.ask_price_2, d.ask_price_3, d.ask_price_4, d.ask_price_5,
              d.bid_volume_2, d.bid_volume_3, d.bid_volume_4, d.bid_volume_5,
              d.ask_volume_2, d.ask_volume_3, d.ask_volume_4,
              d.ask_volume_5 with
        | some bp2, some bp3, some bp4, some bp5, some ap2, some ap3,
          some ap4, some ap5, some bv2, some bv3, some bv4, some bv5,
          some av2, some av3, some av4, some av5 =>
          some { tick with
                 bid_price_2 := bp2, bid_price_3 := bp3, bid_price_4 := bp4
                 bid_price_5 := bp5
                 ask_price_2 := ap2, ask_price_3 := ap3, ask_price_4 := ap4
                 ask_price_5 := ap5
                 bid_volume_2 := bv2, bid_volume_3 := bv3
                 bid_volume_4 := bv4, bid_volume_5 := bv5
                 ask_volume_2 := av2, ask_volume_3 := av3
                 ask_volume_4 := av4, ask_volume_5 := av5 }
        | _, _, _, _, _, _, _, _, _, _, _, _, _, _, _, _ => none
      else some tick
  | _, _, _, _, _, _, _, _, _, _, _, _, _, _, _, _, _, _ => none

/-! ## The storage model

The pymongo database is a list of named collections of bar documents (the
`kline:<exchange>:<symbol>` partitions the bar operations address by name;
accessing an absent collection yields an empty one, and only inserts create
it), together with the one mongoengine class collection `db_tick_data` that
every `DbTickData.objects(...)` query addresses. -/

/-- The database state: the named pymongo collections and the mongoengine
`db_tick_data` collection. -/
structure DbState where
  cols : List (String × List BarDoc)
  tickStore : List DbTickData
deriving DecidableEq

/-- The database with no collection at all. -/
def DbState.empty : DbState := { cols := [], tickStore := [] }

/-- `db[name]` read access: the documents of the named collection, empty
when the collection does not exist (MongoDB creates collections lazily). -/
def dbGetCol (st : DbState) (colName : String) : List BarDoc :=
  match st.cols.find? (fun c => c.1 == colName) with
  | some c => c.2
  | none => []

/-- `collection.insert_many(docs)`: append the documents, creating the
collection when absent. -/
def colInsertMany (st : DbState) (colName : String) (docs : List BarDoc) :
    DbState :=
  if (st.cols.find? (fun c => c.1 == colName)).isSome then
    { st with cols := (st.cols.map
        (fun c => if c.1 == colName then (c.1, c.2 ++ docs) else c)) }
  else
    { st with cols := st.cols ++ [(colName, docs)] }

/-- `collection.delete_many(filter)`: drop the matching documents; a missing
collection is left as it is. -/
def colDeleteMany (st : DbState) (colName : String) (pred : BarDoc → Bool) :
    DbState :=
  { st with cols := (st.cols.map
      (fun c => if c.1 == colName then (c.1, c.2.filter (fun d => !pred d))
                else c)) }

/-- `collection.drop()`: remove the collection from the database. -/
def colDrop (st : DbState) (colName : String) : DbState :=
  { st with cols := st.cols.filter (fun c => !(c.1 == colName)) }

/-- `db.list_collection_names()`: the created collections; the mongoengine
class collection `db_tick_data` exists once a tick document was written. -/
def listCollectionNames (st : DbState) : List String :=
  st.cols.map (fun c => c.1) ++
    (if st.tickStore.isEmpty then [] else ["db_tick_data"])

/-- The comparison operators the MongoDB query language accepts inside an
operator document such as `{'datetime': {'$gte': a, '$lte': b}}`. -/
def knownQueryOp (op : String) : Bool :=
  op == "$gte" || op == "$lte" || op == "$gt" || op == "$lt" ||
    op == "$eq" || op == "$ne"

/-- Satisfaction of one comparison operator by a document datetime. -/
def evalQueryOp (op : String) (bound t : Int) : Bool :=
  if op == "$gte" then bound ≤ t
  else if op == "$lte" then t ≤ bound
  else if op == "$gt" then bound < t
  else if op == "$lt" then t < bound
  else if op == "$eq" then t == bound
  else t != bound

/-- `collection.find(filter)` over a bar partition, for the filter shapes
the module uses: an optional equality on `period` and an operator document
on `datetime`.  MongoDB validates the filter: a key the query language does
not know (such as the module's `$let`) makes the server answer every fetch
on the cursor with `OperationFailure: unknown operator`. -/
def colFind (docs : List BarDoc) (period? : Option String)
    (dtOps : List (String × Int)) : Except String (List BarDoc) :=
  if dtOps.all (fun o => knownQueryOp o.1) then
    .ok (docs.filter (fun d =>
      (match period? with
       | some p => d.period == p
       | none => true) &&
      dtOps.all (fun o => evalQueryOp o.1 o.2 d.datetime)))
  else
    .error "OperationFailure: unknown operator $let"

/-- Insertion into a list sorted by `le` (used to model a cursor sort). -/
def insertSorted (le : BarDoc → BarDoc → Bool) (x : BarDoc) :
    List BarDoc → List BarDoc
  | [] => [x]
  | y :: ys => if le x y then x :: y :: ys else y :: insertSorted le x ys

/-- Stable insertion sort (models `cursor.sort`). -/
def sortDocsBy (le : BarDoc → BarDoc → Bool) : List BarDoc → List BarDoc
  | [] => []
  | x :: xs => insertSorted le x (sortDocsBy le xs)

/-- A pymongo cursor over the fetched documents. -/
structure Cursor where
  docs : List BarDoc
deriving DecidableEq

/-- Python truthiness of a pymongo `Cursor`: the class defines neither
a `__bool__` nor a `__len__` method, so `if res:` sees the object default,
always `True`, whatever the result set. -/
def Cursor.toBool (_ : Cursor) : Bool := true

/-- `res[i]` on a pymongo cursor: the i-th result, `IndexError` when the
result set is too small. -/
def Cursor.getitem (c : Cursor) (i : Nat) : Except String BarDoc :=
  match c.docs.drop i with
  | [] => .error "IndexError: no such item for Cursor instance"
  | d :: _ => .ok d

/-! ## The tick store (mongoengine path)

`save_tick_data` runs `DbTickData.objects(symbol=..., exchange=...,
datetime=...).update_one(upsert=True, **updates)` where `updates` is
`to_update_param(d)` minus the popped `set__gateway_name` and
`set__vt_symbol`: a `$set` of every remaining `TickData` field, enumerations
replaced by their `value` codes.  `update_one` rewrites the first matching
document, or inserts one built from the filter plus the `$set` fields when
none matches. -/

/-- The upsert filter key of a tick: `(symbol, exchange.value, datetime)`. -/
def tickKey (d : TickData) : String × String × Int :=
  (d.symbol, d.exchange.value, d.datetime)

/-- The key actually carried by a stored tick document. -/
def rowKey (r : DbTickData) : Option (String × String × Int) :=
  match r.symbol, r.exchange, r.datetime with
  | some s, some e, some t => some (s, e, t)
  | _, _, _ => none

/-- Does a stored document match the upsert filter of tick `d`? -/
def tickMatches (d : TickData) (r : DbTickData) : Bool :=
  rowKey r == some (tickKey d)

/-- Apply the `$set` document built by `MongoManager.to_update_param(d)`
(with `set__gateway_name` and `set__vt_symbol` popped) to a stored
document: every `TickData` field is overwritten; `close_price`, which is no
`TickData` field, is left alone. -/
def tickUpdate (d : TickData) (r : DbTickData) : DbTickData :=
  { symbol := some d.symbol
    exchange := some d.exchange.value
    datetime := some d.datetime
    name := some d.name
    volume := some d.volume
    open_interest := some d.open_interest
    last_price := some d.last_price
    last_volume := some d.last_volume
    limit_up := some d.limit_up
    limit_down := some d.limit_down
    open_price := some d.open_price
    high_price := some d.high_price
    low_price := some d.low_price
    close_price := r.close_price
    pre_close := some d.pre_close
    bid_price_1 := some d.bid_price_1
    bid_price_2 := some d.bid_price_2
    bid_price_3 := some d.bid_price_3
    bid_price_4 := some d.bid_price_4
    bid_price_5 := some d.bid_price_5
    ask_price_1 := some d.ask_price_1
    ask_price_2 := some d.ask_price_2
    ask_price_3 := some d.ask_price_3
    ask_price_4 := some d.ask_price_4
    ask_price_5 := some d.ask_price_5
    bid_volume_1 := some d.bid_volume_1
    bid_volume_2 := some d.bid_volume_2
    bid_volume_3 := some d.bid_volume_3
    bid_volume_4 := some d.bid_volume_4
    bid_volume_5 := some d.bid_volume_5
    ask_volume_1 := some d.ask_volume_1
    ask_volume_2 := some d.ask_volume_2
    ask_volume_3 := some d.ask_volume_3
    ask_volume_4 := some d.ask_volume_4
    ask_volume_5 := some d.ask_volume_5 }

/-- The document `update_one(upsert=True, ...)` inserts when nothing
matches: the filter fields plus the `$set` fields — here the `$set` fields
already contain the filter fields, applied to a fresh unset document. -/
def tickInsert (d : TickData) : DbTickData :=
  tickUpdate d DbTickData.empty

/-- `DbTickData.objects(symbol=.., exchange=.., datetime=..).update_one(
upsert=True, **updates)`: rewrite the first matching stored document, else
append the insert document. -/
def upsertTick (d : TickData) : List DbTickData → List DbTickData
  | [] => [tickInsert d]
  | r :: rs => if tickMatches d r then tickUpdate d r :: rs
               else r :: upsertTick d rs

/-! ## The manager operations -/

/-- `MongoManager.load_bar_data`: lower-case the venue code and the symbol,
address the `kline:<ex>:<s>` partition and find
`{'period': interval.value, 'datetime': {'$gte': start, '$let': end}}`
sorted ascending, decoding each result with `to_bar`.  (`$let` is what the
module writes; the query language knows `$lte` but no `$let`.) -/
def MongoManager.load_bar_data (st : DbState) (symbol : String)
    (exchange : Exchange) (interval : Interval) (start stop : Int) :
    Except String (List BarData) := do
  let ex := pyLower exchange.value
  let s := pyLower symbol
  let col := dbGetCol st ("kline:" ++ ex ++ ":" ++ s)
  let docs ← colFind col (some interval.value) [("$gte", start), ("$let", stop)]
  let sorted := sortDocsBy (fun a b => a.datetime ≤ b.datetime) docs
  sorted.mapM (to_bar ex s)

/-- `MongoManager.load_tick_data`: a mongoengine query on the class
collection `db_tick_data` — symbol and venue code taken verbatim (no
lower-casing, no per-symbol partition), `datetime__gte`/`datetime__lte`
bounds, no ordering clause; each stored document is decoded by
`DbTickData.to_tick`. -/
def MongoManager.load_tick_data (st : DbState) (symbol : String)
    (exchange : Exchange) (start stop : Int) : List TickData :=
  let rows := st.tickStore.filter (fun r =>
    r.symbol == some symbol && r.exchange == some exchange.value &&
      (match r.datetime with
       | some t => start ≤ t && t ≤ stop
       | none => false))
  rows.filterMap DbTickData.to_tick

/-- `MongoManager.save_bar_data`: a no-op on the empty batch; otherwise the
batch datetime span is computed and the module evaluates
`data_list[0].exchange.lower()` — attribute access on the `Exchange`
enumeration member, which raises `AttributeError` before any storage call.
The remainder embeds the continuation the module wrote after that
expression: delete the same-period rows strictly inside the span from the
`kline:<ex>:<s>` partition, then insert the whole encoded batch. -/
def MongoManager.save_bar_data (st : DbState) (data_list : List BarData) :
    Except String DbState :=
  match data_list with
  | [] => .ok st
  | d0 :: rest => do
    let l := d0 :: rest
    let min_time := (l.map (fun b => b.datetime)).foldl min d0.datetime
    let max_time := (l.map (fun b => b.datetime)).foldl max d0.datetime
    let ex ← Exchange.lower d0.exchange
    let s := pyLower d0.symbol
    let p := d0.interval.value
    let colName := "kline:" ++ ex ++ ":" ++ s
    let st1 := colDeleteMany st colName (fun doc =>
      doc.period == p && min_time < doc.datetime && doc.datetime < max_time)
    .ok (colInsertMany st1 colName (l.map (from_bar ex s)))

/-- `MongoManager.save_tick_data`: one mongoengine
`update_one(upsert=True)` per record, in batch order, against the class
collection `db_tick_data`. -/
def MongoManager.save_tick_data (st : DbState) (datas : List TickData) :
    DbState :=
  { st with tickStore := (datas.foldl (fun rows d => upsertTick d rows)
      st.tickStore) }

/-- `MongoManager.get_newest_bar_data`: find `{'period': interval.value}`
in the `kline:<ex>:<s>` partition, sort descending by datetime, limit one;
then `if res:` — cursor truthiness, always `True` — and `res[0]`, which
raises `IndexError` on an empty result set. -/
def MongoManager.get_newest_bar_data (st : DbState) (symbol : String)
    (exchange : Exchange) (interval : Interval) :
    Except String (Option BarData) := do
  let ex := pyLower exchange.value
  let s := pyLower symbol
  let col := dbGetCol st ("kline:" ++ ex ++ ":" ++ s)
  let docs ← colFind col (some interval.value) []
  let res : Cursor :=
    { docs := (sortDocsBy (fun a b => b.datetime ≤ a.datetime) docs).take 1 }
  if res.toBool then do
    let d ← res.getitem 0
    let b ← to_bar ex s d
    .ok (some b)
  else
    .ok none

/-- `MongoManager.get_oldest_bar_data`: as `get_newest_bar_data` with an
ascending sort. -/
def MongoManager.get_oldest_bar_data (st : DbState) (symbol : String)
    (exchange : Exchange) (interval : Interval) :
    Except String (Option BarData) := do
  let ex := pyLower exchange.value
  let s := pyLower symbol
  let col := dbGetCol st ("kline:" ++ ex ++ ":" ++ s)
  let docs ← colFind col (some interval.value) []
  let res : Cursor :=
    { docs := (sortDocsBy (fun a b => a.datetime ≤ b.datetime) docs).take 1 }
  if res.toBool then do
    let d ← res.getitem 0
    let b ← to_bar ex s d
    .ok (some b)
  else
    .ok none

/-- `MongoManager.get_newest_tick_data`: mongoengine query on
`db_tick_data` filtered by the verbatim symbol and venue code, ordered by
descending datetime, first result or `None`; decoded by
`DbTickData.to_tick`. -/
def MongoManager.get_newest_tick_data (st : DbState) (symbol : String)
    (exchange : Exchange) : Option TickData :=
  let rows := st.tickStore.filter (fun r =>
    r.symbol == some symbol && r.exchange == some exchange.value)
  let first := rows.foldl (fun acc r =>
    match acc with
    | none => some r
    | some a => if a.datetime.getD 0 < r.datetime.getD 0 then some r
                else acc) none
  first.bind DbTickData.to_tick

/-- One entry of the statistics result. -/
structure BarStat where
  symbol : String
  exchange : String
  interval : String
  count : Nat
deriving DecidableEq

/-- The distinct `period` values of a partition, in first-appearance order
(`collection.distinct('period')`). -/
def distinctPeriods (docs : List BarDoc) : List String :=
  docs.foldl (fun acc d => if acc.contains d.period then acc
                           else acc ++ [d.period]) []

/-- `MongoManager.get_bar_data_statistics`: walk every `kline:`-named
collection, split the name into venue and symbol (`ValueError` unless the
tail has exactly two parts), and for each distinct period emit one entry —
whose count the module takes from `db['col_name']`, the collection literally
named `col_name`, not the one being iterated. -/
def MongoManager.get_bar_data_statistics (st : DbState) :
    Except String (List BarStat) :=
  let names := (listCollectionNames st).filter
    (fun n => pyStartsWith "kline:" n)
  names.foldlM (fun acc n =>
    match (pySplit ':' n).drop 1 with
    | [ex, s] =>
      let entries := (distinctPeriods (dbGetCol st n)).map (fun p =>
        { symbol := s
          exchange := pyUpper ex
          interval := p
          count := (dbGetCol st "col_name").countP
            (fun d => d.period == p) : BarStat })
      .ok (acc ++ entries)
    | _ => .error "ValueError: not enough values to unpack") []

/-- `MongoManager.delete_bar_data`: read the partition's estimated document
count, drop the whole partition, return the count.  (The interval argument
plays no part in what is dropped.) -/
def MongoManager.delete_bar_data (st : DbState) (symbol : String)
    (exchange : Exchange) (_interval : Interval) : Nat × DbState :=
  let ex := pyLower exchange.value
  let s := pyLower symbol
  let colName := "kline:" ++ ex ++ ":" ++ s
  let count := (dbGetCol st colName).length
  (count, colDrop st colName)

/-- `MongoManager.clean`: walk every collection whose name starts with
`kline:` or `tick:`, split the name (`ValueError` unless the tail has
exactly two parts), and drop it when its symbol component equals the
lower-cased argument.  The mongoengine collection `db_tick_data` carries
neither name shape, so tick documents written by `save_tick_data` are never
dropped. -/
def MongoManager.clean (st : DbState) (symbol : String) :
    Except String DbState :=
  let names := (listCollectionNames st).filter
    (fun n => pyStartsWith "kline:" n || pyStartsWith "tick:" n)
  names.foldlM (fun acc n =>
    match (pySplit ':' n).drop 1 with
    | [_ex, s] => if pyLower symbol == s then .ok (colDrop acc n) else .ok acc
    | _ => .error "ValueError: not enough values to unpack") st

/-! ## Fixtures -/

/-- A concrete minute bar for `(AAPL, NASDAQ)` at a given timestamp, saved
by some gateway `"GW"`. -/
def mkBar (dt : Int) : BarData :=
  { symbol := "AAPL", exchange := .NASDAQ, datetime := dt,
    interval := .MINUTE, volume := 10, open_interest := 1, open_price := 2,
    high_price := 3, low_price := 1, close_price := 2, gateway_name := "GW" }

/-- The stored document of `mkBar dt` in the `kline:nasdaq:aapl`
partition. -/
def docAt (dt : Int) : BarDoc := from_bar "nasdaq" "aapl" (mkBar dt)

/-- A database holding the `kline:nasdaq:aapl` partition with minute bars
at timestamps 1 < 2 < 3. -/
def stBars : DbState :=
  { cols := [("kline:nasdaq:aapl", [docAt 1, docAt 2, docAt 3])],
    tickStore := [] }

/-- A concrete tick for `(AAPL, NASDAQ)` with no depth beyond level one,
produced by some gateway `"GW"`. -/
def tick0 : TickData :=
  { symbol := "AAPL", exchange := .NASDAQ, datetime := 100, name := "Apple"
    volume := 5, open_interest := 0, last_price := 7, last_volume := 1
    limit_up := 9, limit_down := 1, open_price := 6, high_price := 8
    low_price := 5, pre_close := 6
    bid_price_1 := 7, bid_price_2 := 0, bid_price_3 := 0, bid_price_4 := 0
    bid_price_5 := 0
    ask_price_1 := 7, ask_price_2 := 0, ask_price_3 := 0, ask_price_4 := 0
    ask_price_5 := 0
    bid_volume_1 := 2, bid_volume_2 := 0, bid_volume_3 := 0
    bid_volume_4 := 0, bid_volume_5 := 0
    ask_volume_1 := 2, ask_volume_2 := 0, ask_volume_3 := 0
    ask_volume_4 := 0, ask_volume_5 := 0
    gateway_name := "GW" }

/-! ## The claims -/

/-- C1.  `save_bar_data` never reaches its delete-then-insert sequence: on
any non-empty batch it evaluates `data_list[0].exchange.lower()`, attribute
access on the `Exchange` enumeration, and raises `AttributeError` instead
of computing a partition key, deleting, or inserting; the empty batch is a
no-op.  The claimed replace-range write therefore never happens. -/
theorem save_bar_data_raises_attribute_error :
    MongoManager.save_bar_data stBars [mkBar 5]
      = .error "AttributeError: Exchange object has no attribute lower" ∧
    MongoManager.save_bar_data stBars [] = .ok stBars := by
  decide

/-- C2.  `load_bar_data` spells the upper query bound `$let` instead of
`$lte`; MongoDB rejects the unknown operator, so the query on a partition
holding minute bars at timestamps 1 < 2 < 3 with bounds `[1, 2]` raises
`OperationFailure` instead of returning the two bars — while the same
filter with the intended `$lte` operator selects exactly the documents at
timestamps 1 and 2. -/
theorem load_bar_data_unknown_operator :
    MongoManager.load_bar_data stBars "AAPL" .NASDAQ .MINUTE 1 2
      = .error "OperationFailure: unknown operator $let" ∧
    colFind (dbGetCol stBars "kline:nasdaq:aapl") (some "1m")
        [("$gte", 1), ("$lte", 2)]
      = .ok [docAt 1, docAt 2] := by
  decide

/-- C5.  On an empty (or interval-less) partition `get_newest_bar_data`
and `get_oldest_bar_data` do not return `None`: the cursor truthiness check
`if res:` is always true, so `res[0]` raises `IndexError`.  When matching
rows exist, the newest (greatest datetime) and oldest (least datetime) bars
are returned. -/
theorem get_extreme_bar_data_raises_on_empty :
    MongoManager.get_newest_bar_data DbState.empty "AAPL" .NASDAQ .MINUTE
      = .error "IndexError: no such item for Cursor instance" ∧
    MongoManager.get_oldest_bar_data DbState.empty "AAPL" .NASDAQ .MINUTE
      = .error "IndexError: no such item for Cursor instance" ∧
    MongoManager.get_newest_bar_data stBars "AAPL" .NASDAQ .MINUTE
      = .ok (some { mkBar 3 with symbol := "aapl", gateway_name := "DB" }) ∧
    MongoManager.get_oldest_bar_data stBars "AAPL" .NASDAQ .MINUTE
      = .ok (some { mkBar 1 with symbol := "aapl", gateway_name := "DB" }) := by
  decide

/-- C6.  `get_bar_data_statistics` counts inside `db['col_name']` — the
collection literally named `col_name` — not inside the partition being
iterated: on a database whose only partition `kline:nasdaq:aapl` holds
three minute bars, the emitted entry carries count 0, because no collection
named `col_name` exists. -/
theorem get_bar_data_statistics_counts_fixed_collection :
    MongoManager.get_bar_data_statistics stBars
      = .ok [{ symbol := "aapl", exchange := "NASDAQ", interval := "1m",
               count := 0 }] ∧
    dbGetCol stBars "col_name" = [] ∧
    (dbGetCol stBars "kline:nasdaq:aapl").countP
        (fun d => d.period == "1m") = 3 := by
  decide

/-- C9.  `delete_bar_data` does return the partition's pre-drop estimated
row count and drops the whole partition — but the immediately following
`load_bar_data` does not return an empty sequence: it raises the `$let`
`OperationFailure` like every other call to it. -/
theorem delete_bar_data_then_load_raises :
    MongoManager.delete_bar_data stBars "AAPL" .NASDAQ .MINUTE
      = (3, DbState.empty) ∧
    dbGetCol (MongoManager.delete_bar_data stBars "AAPL" .NASDAQ .MINUTE).2
      "kline:nasdaq:aapl" = [] ∧
    MongoManager.load_bar_data DbState.empty "AAPL" .NASDAQ .MINUTE 0 10
      = .error "OperationFailure: unknown operator $let" := by
  decide

/-- C7 (counterexample).  Decoding the encoding of a bar with its own
(lower-cased) exchange code and symbol is not the identity: the bar
`mkBar 1` has symbol `"AAPL"` and gateway `"GW"`, but the round-trip
lower-cases the symbol and pins the gateway to `"DB"`. -/
theorem bar_document_roundtrip_not_identity :
    to_bar "nasdaq" "aapl" (from_bar "nasdaq" "aapl" (mkBar 1))
      ≠ Except.ok (mkBar 1) := by
  decide

/-- C7 (amended).  For every bar `b`, decoding the document encoded with
`b`'s own lower-cased exchange code and lower-cased symbol returns `b` with
its symbol lower-cased and its gateway name set to `"DB"`; every other
field, the enumerated interval and exchange included, decodes back to its
original value. -/
theorem bar_document_roundtrip_amended (b : BarData) :
    to_bar (pyLower b.exchange.value) (pyLower b.symbol)
      (from_bar (pyLower b.exchange.value) (pyLower b.symbol) b)
    = Except.ok { b with symbol := pyLower b.symbol,
                         gateway_name := "DB" } := by
  cases b with
  | mk symbol exchange datetime interval volume oi op hp lp cp gw =>
    cases exchange <;> cases interval <;> rfl

/-! ## Round-trip and gateway lemmas -/

/-- Decoding the canonical code of a venue gives the venue back. -/
theorem exchange_ofValue_value (e : Exchange) :
    Exchange.ofValue e.value = some e := by
  cases e <;> rfl

/-- A concrete tick with a full five-level depth ladder and a non-`"DB"`
gateway. -/
def tickDeep : TickData :=
  { tick0 with
    bid_price_2 := 6, bid_price_3 := 5, bid_price_4 := 4, bid_price_5 := 3
    ask_price_2 := 8, ask_price_3 := 9, ask_price_4 := 10, ask_price_5 := 11
    bid_volume_2 := 1, bid_volume_3 := 1, bid_volume_4 := 1
    bid_volume_5 := 1
    ask_volume_2 := 1, ask_volume_3 := 1, ask_volume_4 := 1
    ask_volume_5 := 1 }

/-- A concrete tick with no level-2 bid price but junk in level 3. -/
def tickShallow : TickData := { tick0 with bid_price_3 := 9 }

/-- C8 (counterexample).  The tick round-trip is not lossless even with a
full depth ladder: `tickDeep` carries gateway `"GW"`, the decode pins the
gateway to `"DB"`, so the round-trip differs from the original tick. -/
theorem tick_document_roundtrip_changes_gateway :
    DbTickData.to_tick (DbTickData.from_tick tickDeep) ≠ some tickDeep := by
  decide

/-- C8 (amended).  The tick round-trip is governed by the depth guard and
pins `gateway_name` to `"DB"`: with a non-zero level-2 bid price every
field except `gateway_name` survives, all five depth levels included; with
a zero level-2 bid price the decoded tick carries the default (zero)
levels 2–5 on both sides — whatever levels 3–5 held before encoding — and
every remaining field except `gateway_name` survives. -/
theorem tick_document_roundtrip_amended (t : TickData) :
    (t.bid_price_2 ≠ 0 →
      DbTickData.to_tick (DbTickData.from_tick t)
        = some { t with gateway_name := "DB" }) ∧
    (t.bid_price_2 = 0 →
      DbTickData.to_tick (DbTickData.from_tick t)
        = some { t with gateway_name := "DB"
                        bid_price_2 := 0, bid_price_3 := 0, bid_price_4 := 0
                        bid_price_5 := 0
                        ask_price_2 := 0, ask_price_3 := 0, ask_price_4 := 0
                        ask_price_5 := 0
                        bid_volume_2 := 0, bid_volume_3 := 0
                        bid_volume_4 := 0, bid_volume_5 := 0
                        ask_volume_2 := 0, ask_volume_3 := 0
                        ask_volume_4 := 0, ask_volume_5 := 0 }) := by
  constructor <;> intro h <;>
    simp [DbTickData.from_tick, DbTickData.to_tick, DbTickData.empty, h,
      exchange_ofValue_value]

/-- C8 (witness).  The amended round-trip at the two concrete ticks: the
deep tick survives in full but for its gateway; the shallow tick loses its
junk level-3 bid price. -/
theorem tick_document_roundtrip_amended_witness :
    DbTickData.to_tick (DbTickData.from_tick tickDeep)
      = some { tickDeep with gateway_name := "DB" } ∧
    DbTickData.to_tick (DbTickData.from_tick tickShallow)
      = some { tickShallow with
               gateway_name := "DB"
               bid_price_2 := 0, bid_price_3 := 0, bid_price_4 := 0
               bid_price_5 := 0
               ask_price_2 := 0, ask_price_3 := 0, ask_price_4 := 0
               ask_price_5 := 0
               bid_volume_2 := 0, bid_volume_3 := 0
               bid_volume_4 := 0, bid_volume_5 := 0
               ask_volume_2 := 0, ask_volume_3 := 0
               ask_volume_4 := 0, ask_volume_5 := 0 } :=
  ⟨(tick_document_roundtrip_amended tickDeep).1 (by decide),
   (tick_document_roundtrip_amended tickShallow).2 (by decide)⟩

/-- C7 (amended, witness).  The amended bar round-trip at the concrete bar
`mkBar 1`. -/
theorem bar_document_roundtrip_amended_witness :
    to_bar (pyLower (mkBar 1).exchange.value) (pyLower (mkBar 1).symbol)
        (from_bar (pyLower (mkBar 1).exchange.value)
          (pyLower (mkBar 1).symbol) (mkBar 1))
      = Except.ok { mkBar 1 with symbol := pyLower (mkBar 1).symbol,
                                 gateway_name := "DB" } :=
  bar_document_roundtrip_amended (mkBar 1)

/-- The state after saving `tick0` into the empty database. -/
def stTick : DbState := MongoManager.save_tick_data DbState.empty [tick0]

/-- C4.  The tick operations derive no `tick:<exchange>:<symbol>` partition
and normalise nothing: after `save_tick_data` of a tick for
`("AAPL", NASDAQ)` the only collection is the mongoengine class collection
`db_tick_data`, whose stored symbol is the verbatim `"AAPL"`; `clean` —
which drops only `kline:`/`tick:`-named collections — removes nothing for
this symbol in either spelling, the saved tick remains readable afterwards,
and a load under the lower-cased symbol misses it. -/
theorem tick_partition_key_not_derived :
    stTick.cols = [] ∧
    listCollectionNames stTick = ["db_tick_data"] ∧
    (stTick.tickStore.map (fun r => r.symbol)) = [some "AAPL"] ∧
    MongoManager.clean stTick "AAPL" = .ok stTick ∧
    MongoManager.clean stTick "aapl" = .ok stTick ∧
    MongoManager.get_newest_tick_data stTick "AAPL" .NASDAQ
      = some { tick0 with gateway_name := "DB" } ∧
    MongoManager.load_tick_data stTick "aapl" .NASDAQ 0 200 = [] := by
  decide

/-! ## C10: the gateway name on every read path -/

/-- Every bar `to_bar` decodes carries gateway `"DB"`. -/
theorem gw_to_bar (ex s : String) (o : BarDoc) (b : BarData)
    (h : to_bar ex s o = .ok b) : b.gateway_name = "DB" := by
  unfold to_bar at h
  split at h
  · simp at h
  · split at h
    · simp at h
    · cases h; rfl

/-- Every bar `DbBarData.to_bar` decodes carries gateway `"DB"`. -/
theorem gw_db_to_bar (d : DbBarData) (b : BarData)
    (h : DbBarData.to_bar d = some b) : b.gateway_name = "DB" := by
  unfold DbBarData.to_bar at h
  split at h
  · split at h
    · cases h; rfl
    · simp at h
  · simp at h

/-- Every tick `DbTickData.to_tick` decodes carries gateway `"DB"`. -/
theorem gw_to_tick (d : DbTickData) (t : TickData)
    (h : DbTickData.to_tick d = some t) : t.gateway_name = "DB" := by
  unfold DbTickData.to_tick at h
  split at h
  · split at h
    · simp at h
    · split at h
      · split at h
        · cases h; rfl
        · simp at h
      · cases h; rfl
  · simp at h

/-- The cursor-indexing and decode pipeline of the extreme-bar reads only
produces `"DB"`-tagged bars. -/
theorem gw_bind_pipeline (ex s : String) (q : Except String BarDoc)
    (b : BarData)
    (h : (q.bind fun d => (to_bar ex s d).bind fun bb => Except.ok (some bb))
           = .ok (some b)) :
    b.gateway_name = "DB" := by
  cases q with
  | error e => simp [Except.bind] at h
  | ok d =>
    simp only [Except.bind] at h
    cases hb : to_bar ex s d with
    | error e => rw [hb] at h; simp at h
    | ok b2 => rw [hb] at h; simp at h; subst h; exact gw_to_bar _ _ _ _ hb

/-- `get_newest_bar_data` only produces `"DB"`-tagged bars. -/
theorem gw_newest_bar (st : DbState) (sym : String) (exch : Exchange)
    (itv : Interval) (b : BarData)
    (h : MongoManager.get_newest_bar_data st sym exch itv = .ok (some b)) :
    b.gateway_name = "DB" := by
  unfold MongoManager.get_newest_bar_data at h
  simp only [colFind, List.all_nil, if_true, Cursor.toBool, bind,
    Except.bind] at h
  exact gw_bind_pipeline _ _ _ _ h

/-- `get_oldest_bar_data` only produces `"DB"`-tagged bars. -/
theorem gw_oldest_bar (st : DbState) (sym : String) (exch : Exchange)
    (itv : Interval) (b : BarData)
    (h : MongoManager.get_oldest_bar_data st sym exch itv = .ok (some b)) :
    b.gateway_name = "DB" := by
  unfold MongoManager.get_oldest_bar_data at h
  simp only [colFind, List.all_nil, if_true, Cursor.toBool, bind,
    Except.bind] at h
  exact gw_bind_pipeline _ _ _ _ h

/-- The first-row-decode pipeline of `get_newest_tick_data` only produces
`"DB"`-tagged ticks. -/
theorem gw_opt_pipeline (q : Option DbTickData) (t : TickData)
    (h : q.bind DbTickData.to_tick = some t) : t.gateway_name = "DB" := by
  cases q with
  | none => simp at h
  | some r => simp only [Option.bind] at h; exact gw_to_tick _ _ h

/-- `get_newest_tick_data` only produces `"DB"`-tagged ticks. -/
theorem gw_newest_tick (st : DbState) (sym : String) (exch : Exchange)
    (t : TickData)
    (h : MongoManager.get_newest_tick_data st sym exch = some t) :
    t.gateway_name = "DB" := by
  simp only [MongoManager.get_newest_tick_data] at h
  exact gw_opt_pipeline _ _ h

/-- `load_tick_data` only produces `"DB"`-tagged ticks. -/
theorem gw_load_tick (st : DbState) (sym : String) (exch : Exchange)
    (a c : Int) (t : TickData)
    (h : t ∈ MongoManager.load_tick_data st sym exch a c) :
    t.gateway_name = "DB" := by
  simp only [MongoManager.load_tick_data, List.mem_filterMap] at h
  obtain ⟨r, _, hr⟩ := h
  exact gw_to_tick _ _ hr

/-- C10.  Every bar and every tick produced by a read path — the document
decoders themselves, the extreme-bar reads, the newest-tick read and the
tick range load — carries the constant gateway name `"DB"`, whatever
gateway name the saved record carried.  (`load_bar_data` yields its bars
through the same `to_bar` decoder, first conjunct.) -/
theorem read_paths_gateway_name_db :
    (∀ (ex s : String) (o : BarDoc) (b : BarData),
       to_bar ex s o = .ok b → b.gateway_name = "DB") ∧
    (∀ (d : DbBarData) (b : BarData),
       DbBarData.to_bar d = some b → b.gateway_name = "DB") ∧
    (∀ (d : DbTickData) (t : TickData),
       DbTickData.to_tick d = some t → t.gateway_name = "DB") ∧
    (∀ (st : DbState) (sym : String) (exch : Exchange) (itv : Interval)
       (b : BarData),
       MongoManager.get_newest_bar_data st sym exch itv = .ok (some b) →
         b.gateway_name = "DB") ∧
    (∀ (st : DbState) (sym : String) (exch : Exchange) (itv : Interval)
       (b : BarData),
       MongoManager.get_oldest_bar_data st sym exch itv = .ok (some b) →
         b.gateway_name = "DB") ∧
    (∀ (st : DbState) (sym : String) (exch : Exchange) (t : TickData),
       MongoManager.get_newest_tick_data st sym exch = some t →
         t.gateway_name = "DB") ∧
    (∀ (st : DbState) (sym : String) (exch : Exchange) (a c : Int)
       (t : TickData),
       t ∈ MongoManager.load_tick_data st sym exch a c →
         t.gateway_name = "DB") :=
  ⟨gw_to_bar, gw_db_to_bar, gw_to_tick, gw_newest_bar, gw_oldest_bar,
   gw_newest_tick, gw_load_tick⟩

/-- The bar `to_bar` decodes from the stored document of `mkBar 1`. -/
def barW : BarData := { mkBar 1 with symbol := "aapl", gateway_name := "DB" }

/-- C10 (witness).  The read-path gateway property at concrete inputs: the
document of `mkBar 1` decodes to `barW`, and the saved `tick0` is read back
by `get_newest_tick_data`; both carry gateway `"DB"`. -/
theorem read_paths_gateway_name_db_witness :
    (to_bar "nasdaq" "aapl" (docAt 1) = .ok barW ∧
       barW.gateway_name = "DB") ∧
    (MongoManager.get_newest_tick_data stTick "AAPL" .NASDAQ
        = some { tick0 with gateway_name := "DB" } ∧
       TickData.gateway_name { tick0 with gateway_name := "DB" } = "DB") :=
  ⟨⟨by decide,
    read_paths_gateway_name_db.1 "nasdaq" "aapl" (docAt 1) barW (by decide)⟩,
   ⟨by decide,
    read_paths_gateway_name_db.2.2.2.2.2.1 stTick "AAPL" .NASDAQ
      { tick0 with gateway_name := "DB" } (by decide)⟩⟩

/-! ## C3: the tick upsert contract -/

abbrev TickKey := String × String × Int

def saveTicks (rows : List DbTickData) (l : List TickData) :
    List DbTickData :=
  l.foldl (fun rows d => upsertTick d rows) rows

def hasKey (k : TickKey) (rows : List DbTickData) : Bool :=
  rows.any (fun r => rowKey r == some k)

def countKey (k : TickKey) : List DbTickData → Nat
  | [] => 0
  | r :: rs => (if rowKey r == some k then 1 else 0) + countKey k rs

theorem rowKey_tickUpdate (d : TickData) (r : DbTickData) :
    rowKey (tickUpdate d r) = some (tickKey d) := rfl

theorem close_tickUpdate (d : TickData) (r : DbTickData) :
    (tickUpdate d r).close_price = r.close_price := rfl

theorem tickUpdate_tickUpdate (d e : TickData) (r : DbTickData) :
    tickUpdate d (tickUpdate e r) = tickUpdate d r := rfl

theorem tickMatches_true_iff (d : TickData) (r : DbTickData) :
    tickMatches d r = true ↔ rowKey r = some (tickKey d) := by
  simp [tickMatches]

theorem tickMatches_false_iff (d : TickData) (r : DbTickData) :
    tickMatches d r = false ↔ rowKey r ≠ some (tickKey d) := by
  simp [tickMatches]

theorem tickUpdate_congr (d : TickData) {r r' : DbTickData}
    (h : r.close_price = r'.close_price) :
    tickUpdate d r = tickUpdate d r' := by
  simp [tickUpdate, h]

inductive SimK (k : TickKey) : List DbTickData → List DbTickData → Prop
  | nil : SimK k [] []
  | skip {r : DbTickData} {V U : List DbTickData} :
      rowKey r ≠ some k → SimK k V U → SimK k (r :: V) (r :: U)
  | hit {r r' : DbTickData} {U : List DbTickData} :
      rowKey r = some k → rowKey r' = some k →
      r.close_price = r'.close_price → SimK k (r :: U) (r' :: U)

theorem upsert_eq_of_simK {k : TickKey} {V U : List DbTickData}
    (d : TickData) (hk : tickKey d = k) (h : SimK k V U) :
    upsertTick d V = upsertTick d U := by
  induction h with
  | nil => rfl
  | @skip r V U hr hVU ih =>
    have m : tickMatches d r = false :=
      (tickMatches_false_iff d r).2 (by rw [hk]; exact hr)
    simp [upsertTick, m, ih]
  | @hit r r' U h1 h2 hc =>
    have m1 : tickMatches d r = true :=
      (tickMatches_true_iff d r).2 (by rw [hk]; exact h1)
    have m2 : tickMatches d r' = true :=
      (tickMatches_true_iff d r').2 (by rw [hk]; exact h2)
    simp [upsertTick, m1, m2]
    exact tickUpdate_congr d hc

theorem simK_upsert_other {k : TickKey} {V U : List DbTickData}
    (e : TickData) (hk : tickKey e ≠ k) (h : SimK k V U) :
    SimK k (upsertTick e V) (upsertTick e U) := by
  induction h with
  | nil =>
    show SimK k [tickInsert e] [tickInsert e]
    have hne : rowKey (tickInsert e) ≠ some k := by
      rw [show rowKey (tickInsert e) = some (tickKey e) from rfl]
      intro hh
      exact hk (Option.some.inj hh)
    exact .skip hne .nil
  | @skip r V U hr hVU ih =>
    by_cases m : tickMatches e r = true
    · simp only [upsertTick, m, if_true]
      have hne : rowKey (tickUpdate e r) ≠ some k := by
        rw [rowKey_tickUpdate e r]
        intro hh
        exact hk (Option.some.inj hh)
      exact .skip hne hVU
    · rw [Bool.not_eq_true] at m
      simp only [upsertTick, m, Bool.false_eq_true, if_false]
      exact .skip hr ih
  | @hit r r' U h1 h2 hc =>
    have m1 : tickMatches e r = false := by
      rw [tickMatches_false_iff e r, h1]
      intro hh
      exact hk (Option.some.inj hh).symm
    have m2 : tickMatches e r' = false := by
      rw [tickMatches_false_iff e r', h2]
      intro hh
      exact hk (Option.some.inj hh).symm
    simp only [upsertTick, m1, m2, Bool.false_eq_true, if_false]
    exact .hit h1 h2 hc

theorem simK_of_upsert_hasKey {d : TickData} {T : List DbTickData}
    (h : hasKey (tickKey d) T = true) :
    SimK (tickKey d) (upsertTick d T) T := by
  induction T with
  | nil => simp [hasKey] at h
  | cons r rs ih =>
    by_cases m : tickMatches d r = true
    · simp only [upsertTick, m, if_true]
      exact .hit (rowKey_tickUpdate d r) ((tickMatches_true_iff d r).1 m)
        (close_tickUpdate d r)
    · rw [Bool.not_eq_true] at m
      have h' : hasKey (tickKey d) rs = true := by
        simp only [hasKey, List.any_cons, Bool.or_eq_true] at h
        rcases h with h | h
        · exact absurd ((tickMatches_true_iff d r).2 (by simpa using h)) (by simp [m])
        · exact h
      simp only [upsertTick, m, Bool.false_eq_true, if_false]
      exact .skip ((tickMatches_false_iff d r).1 m) (ih h')

theorem rowKey_tickInsert (d : TickData) :
    rowKey (tickInsert d) = some (tickKey d) := rfl

theorem hasKey_upsert_self (d : TickData) (S : List DbTickData) :
    hasKey (tickKey d) (upsertTick d S) = true := by
  induction S with
  | nil => simp [upsertTick, hasKey, rowKey_tickInsert]
  | cons r rs ih =>
    by_cases m : tickMatches d r = true
    · simp [upsertTick, m, hasKey, rowKey_tickUpdate]
    · rw [Bool.not_eq_true] at m
      simp only [upsertTick, m, Bool.false_eq_true, if_false]
      simp [hasKey] at ih ⊢
      exact Or.inr ih

theorem hasKey_upsert_mono {k : TickKey} {S : List DbTickData}
    (e : TickData) (h : hasKey k S = true) :
    hasKey k (upsertTick e S) = true := by
  induction S with
  | nil => simp [hasKey] at h
  | cons r rs ih =>
    simp only [hasKey, List.any_cons, Bool.or_eq_true] at h
    by_cases m : tickMatches e r = true
    · simp only [upsertTick, m, if_true]
      rcases h with h | h
      · have hr : rowKey r = some (tickKey e) := (tickMatches_true_iff e r).1 m
        have hk : k = tickKey e := by
          rw [hr] at h
          exact (Option.some.inj (eq_of_beq h)).symm
        simp [hasKey, rowKey_tickUpdate, hk]
      · simp only [hasKey, List.any_cons, Bool.or_eq_true]
        exact Or.inr h
    · rw [Bool.not_eq_true] at m
      simp only [upsertTick, m, Bool.false_eq_true, if_false]
      simp only [hasKey, List.any_cons, Bool.or_eq_true]
      rcases h with h | h
      · exact Or.inl h
      · exact Or.inr (ih h)

theorem hasKey_saveTicks_mono {k : TickKey} (l : List TickData) :
    ∀ {S : List DbTickData}, hasKey k S = true →
      hasKey k (saveTicks S l) = true := by
  induction l with
  | nil => intro S h; exact h
  | cons e rest ih =>
    intro S h
    exact ih (hasKey_upsert_mono e h)

theorem hasKey_saveTicks_of_mem {d : TickData} {l : List TickData}
    (h : d ∈ l) : ∀ (S : List DbTickData),
      hasKey (tickKey d) (saveTicks S l) = true := by
  induction l with
  | nil => cases h
  | cons e rest ih =>
    intro S
    rcases List.mem_cons.1 h with rfl | h'
    · exact hasKey_saveTicks_mono rest (hasKey_upsert_self d S)
    · exact ih h' (upsertTick e S)

theorem upsert_absent {d : TickData} {S : List DbTickData}
    (h : hasKey (tickKey d) S = false) :
    upsertTick d S = S ++ [tickInsert d] := by
  induction S with
  | nil => rfl
  | cons r rs ih =>
    simp only [hasKey, List.any_cons, Bool.or_eq_false_iff] at h
    have m : tickMatches d r = false := by
      rw [tickMatches_false_iff d r]
      intro hh
      simp [hh] at h
    simp only [upsertTick, m, Bool.false_eq_true, if_false, List.cons_append]
    rw [ih]
    simp only [hasKey]
    exact h.2

theorem upsert_append_hasKey {e : TickData} {U : List DbTickData}
    (W : List DbTickData) (h : hasKey (tickKey e) U = true) :
    upsertTick e (U ++ W) = upsertTick e U ++ W := by
  induction U with
  | nil => simp [hasKey] at h
  | cons r rs ih =>
    by_cases m : tickMatches e r = true
    · simp [upsertTick, m]
    · rw [Bool.not_eq_true] at m
      have h' : hasKey (tickKey e) rs = true := by
        simp only [hasKey, List.any_cons, Bool.or_eq_true] at h
        rcases h with h | h
        · exact absurd ((tickMatches_true_iff e r).2 (eq_of_beq h)) (by simp [m])
        · exact h
      simp only [List.cons_append, upsertTick, m, Bool.false_eq_true,
        if_false]
      show r :: upsertTick e (rs ++ W) = r :: (upsertTick e rs ++ W)
      rw [ih h']

theorem saveTicks_append {l : List TickData} :
    ∀ {U : List DbTickData} (W : List DbTickData),
      (∀ d ∈ l, hasKey (tickKey d) U = true) →
      saveTicks (U ++ W) l = saveTicks U l ++ W := by
  induction l with
  | nil => intro U W _; rfl
  | cons e rest ih =>
    intro U W h
    have h1 : hasKey (tickKey e) U = true := h e (List.mem_cons_self e rest)
    show saveTicks (upsertTick e (U ++ W)) rest
        = saveTicks (upsertTick e U) rest ++ W
    rw [upsert_append_hasKey W h1]
    exact ih W (fun d hd => hasKey_upsert_mono e (h d (List.mem_cons_of_mem e hd)))

theorem upsert_insert_absent {d : TickData} {T : List DbTickData}
    (h : hasKey (tickKey d) T = false) :
    upsertTick d (T ++ [tickInsert d]) = T ++ [tickInsert d] := by
  induction T with
  | nil =>
    have m : tickMatches d (tickInsert d) = true :=
      (tickMatches_true_iff d (tickInsert d)).2 (rowKey_tickInsert d)
    simp only [List.nil_append, upsertTick, m, if_true]
    rw [show tickUpdate d (tickInsert d) = tickInsert d from rfl]
  | cons r rs ih =>
    simp only [hasKey, List.any_cons, Bool.or_eq_false_iff] at h
    have m : tickMatches d r = false := by
      rw [tickMatches_false_iff d r]
      intro hh
      simp [hh] at h
    simp only [List.cons_append, upsertTick, m, Bool.false_eq_true, if_false]
    show r :: upsertTick d (rs ++ [tickInsert d]) = r :: (rs ++ [tickInsert d])
    rw [ih h.2]

theorem saveTicks_rel {k : TickKey} (l : List TickData) :
    ∀ {V U : List DbTickData}, (V = U ∨ SimK k V U) →
      saveTicks V l = saveTicks U l ∨ SimK k (saveTicks V l) (saveTicks U l) := by
  induction l with
  | nil => intro V U h; exact h
  | cons e rest ih =>
    intro V U h
    rcases h with rfl | hsim
    · exact ih (Or.inl rfl)
    · by_cases he : tickKey e = k
      · exact ih (Or.inl (upsert_eq_of_simK e he hsim))
      · exact ih (Or.inr (simK_upsert_other e he hsim))

theorem saveTicks_idem (l : List TickData) :
    ∀ S : List DbTickData, saveTicks (saveTicks S l) l = saveTicks S l := by
  induction l using List.reverseRecOn with
  | nil => intro S; rfl
  | append_singleton init d ih =>
    intro S
    have hfold : ∀ rows : List DbTickData,
        saveTicks rows (init ++ [d]) = upsertTick d (saveTicks rows init) := by
      intro rows
      simp [saveTicks, List.foldl_append]
    rw [hfold, hfold]
    have hTT : saveTicks (saveTicks S init) init = saveTicks S init := ih S
    by_cases hk : hasKey (tickKey d) (saveTicks S init) = true
    · have h1 : SimK (tickKey d) (upsertTick d (saveTicks S init))
          (saveTicks S init) := simK_of_upsert_hasKey hk
      rcases saveTicks_rel init (Or.inr h1) with heq | hsim
      · rw [heq, hTT]
      · rw [hTT] at hsim
        exact upsert_eq_of_simK d rfl hsim
    · rw [Bool.not_eq_true] at hk
      rw [upsert_absent hk]
      have hmem : ∀ e ∈ init, hasKey (tickKey e) (saveTicks S init) = true :=
        fun e he => hasKey_saveTicks_of_mem he S
      rw [saveTicks_append [tickInsert d] hmem, hTT]
      exact upsert_insert_absent hk

theorem hasKey_cons_elim {k : TickKey} {r : DbTickData}
    {rs : List DbTickData} (h : hasKey k (r :: rs) = true)
    (hm : rowKey r ≠ some k) : hasKey k rs = true := by
  simp only [hasKey, List.any_cons, Bool.or_eq_true] at h
  rcases h with h | h
  · exact absurd (eq_of_beq h) hm
  · exact h

theorem countKey_upsert_ne {k : TickKey} (e : TickData)
    (hk : k ≠ tickKey e) :
    ∀ S : List DbTickData, countKey k (upsertTick e S) = countKey k S := by
  have hk2 : tickKey e ≠ k := Ne.symm hk
  intro S
  induction S with
  | nil => simp [upsertTick, countKey, rowKey_tickInsert, hk2]
  | cons r rs ih =>
    by_cases m : tickMatches e r = true
    · have hr : rowKey r = some (tickKey e) := (tickMatches_true_iff e r).1 m
      simp [upsertTick, m, countKey, rowKey_tickUpdate, hr, hk2]
    · rw [Bool.not_eq_true] at m
      simp only [upsertTick, m, Bool.false_eq_true, if_false, countKey, ih]

theorem countKey_upsert_le (e : TickData) :
    ∀ S : List DbTickData, (∀ k, countKey k S ≤ 1) →
      ∀ k, countKey k (upsertTick e S) ≤ 1 := by
  intro S
  induction S with
  | nil =>
    intro _ k
    simp only [upsertTick, countKey]
    split <;> simp
  | cons r rs ih =>
    intro h k
    have htail : ∀ k', countKey k' rs ≤ 1 := by
      intro k'
      have hh := h k'
      simp only [countKey] at hh
      split at hh <;> omega
    by_cases m : tickMatches e r = true
    · have hr : rowKey r = some (tickKey e) := (tickMatches_true_iff e r).1 m
      simp only [upsertTick, m, if_true, countKey, rowKey_tickUpdate]
      by_cases hb : (some (tickKey e) == some k) = true
      · have h0 : countKey k rs = 0 := by
          have hh := h k
          simp only [countKey, hr] at hh
          rw [if_pos hb] at hh
          omega
        rw [if_pos hb, h0]
      · rw [Bool.not_eq_true] at hb
        simp only [hb, Bool.false_eq_true, if_false]
        have := htail k
        omega
    · rw [Bool.not_eq_true] at m
      simp only [upsertTick, m, Bool.false_eq_true, if_false, countKey]
      split
      next hb =>
        have hkr : rowKey r = some k := eq_of_beq hb
        have hkne : k ≠ tickKey e := by
          intro hh
          exact ((tickMatches_false_iff e r).1 m) (by rw [hkr, hh])
        rw [countKey_upsert_ne e hkne rs]
        have hh := h k
        simp only [countKey] at hh
        rw [if_pos hb] at hh
        omega
      next hb =>
        have := ih htail k
        omega

theorem countKey_saveTicks_le (l : List TickData) :
    ∀ S : List DbTickData, (∀ k, countKey k S ≤ 1) →
      ∀ k, countKey k (saveTicks S l) ≤ 1 := by
  induction l with
  | nil => intro S h; exact h
  | cons e rest ih => intro S h; exact ih _ (countKey_upsert_le e S h)

theorem upsert_present_length {d : TickData} :
    ∀ {S : List DbTickData}, hasKey (tickKey d) S = true →
      (upsertTick d S).length = S.length := by
  intro S
  induction S with
  | nil => intro h; simp [hasKey] at h
  | cons r rs ih =>
    intro h
    by_cases m : tickMatches d r = true
    · simp [upsertTick, m]
    · rw [Bool.not_eq_true] at m
      have h' : hasKey (tickKey d) rs = true :=
        hasKey_cons_elim h ((tickMatches_false_iff d r).1 m)
      simp [upsertTick, m, ih h']

theorem upsert_present_find {d : TickData} :
    ∀ {S : List DbTickData}, hasKey (tickKey d) S = true →
      (upsertTick d S).find? (fun r => tickMatches d r)
        = (S.find? (fun r => tickMatches d r)).map (tickUpdate d) := by
  intro S
  induction S with
  | nil => intro h; simp [hasKey] at h
  | cons r rs ih =>
    intro h
    by_cases m : tickMatches d r = true
    · have mu : tickMatches d (tickUpdate d r) = true :=
        (tickMatches_true_iff d (tickUpdate d r)).2 (rowKey_tickUpdate d r)
      simp [upsertTick, m, List.find?, mu]
    · rw [Bool.not_eq_true] at m
      have h' : hasKey (tickKey d) rs = true :=
        hasKey_cons_elim h ((tickMatches_false_iff d r).1 m)
      simp [upsertTick, m, List.find?, ih h']

/-- C3.  `save_tick_data` is an idempotent upsert: saving the same batch
twice equals saving it once (from any database state); starting from the
empty database, any sequence of `save_tick_data` calls leaves at most one
stored tick per `(symbol, exchange, datetime)` key; and a save for a key
already present rewrites the first stored row with that key in place
instead of adding a row. -/
theorem save_tick_data_upsert_spec :
    (∀ (st : DbState) (batch : List TickData),
       MongoManager.save_tick_data (MongoManager.save_tick_data st batch)
           batch
         = MongoManager.save_tick_data st batch) ∧
    (∀ (calls : List (List TickData)) (k : TickKey),
       countKey k
           ((calls.foldl MongoManager.save_tick_data
             DbState.empty).tickStore)
         ≤ 1) ∧
    (∀ (st : DbState) (d : TickData),
       hasKey (tickKey d) st.tickStore = true →
         (MongoManager.save_tick_data st [d]).tickStore.length
             = st.tickStore.length ∧
           (MongoManager.save_tick_data st [d]).tickStore.find?
               (fun r => tickMatches d r)
             = (st.tickStore.find? (fun r => tickMatches d r)).map
                 (tickUpdate d)) := by
  refine ⟨?_, ?_, ?_⟩
  · intro st batch
    exact congrArg (fun rows => { st with tickStore := rows })
      (saveTicks_idem batch st.tickStore)
  · intro calls
    have main : ∀ (calls : List (List TickData)) (st : DbState),
        (∀ k, countKey k st.tickStore ≤ 1) →
        ∀ k, countKey k ((calls.foldl MongoManager.save_tick_data
          st).tickStore) ≤ 1 := by
      intro calls
      induction calls with
      | nil => intro st h; exact h
      | cons l rest ih =>
        intro st h
        exact ih _ (countKey_saveTicks_le l st.tickStore h)
    exact main calls DbState.empty (fun k => Nat.le_of_eq rfl |>.trans (by simp [countKey, DbState.empty]))
  · intro st d h
    exact ⟨upsert_present_length h, upsert_present_find h⟩


/-- The saved tick rewritten with a new last price under the same
`(symbol, exchange, datetime)` key. -/
def tickMod : TickData := { tick0 with last_price := 99 }

/-- C3 (witness).  The upsert contract at concrete inputs: saving `[tick0]`
twice equals saving it once; after the call sequence `[[tick0], [tick0]]`
the key of `tick0` is stored at most once; and re-saving under the stored
key keeps the store size and rewrites the stored row in place. -/
theorem save_tick_data_upsert_spec_witness :
    (MongoManager.save_tick_data
         (MongoManager.save_tick_data DbState.empty [tick0]) [tick0]
       = MongoManager.save_tick_data DbState.empty [tick0]) ∧
    countKey (tickKey tick0)
        (([[tick0], [tick0]].foldl MongoManager.save_tick_data
          DbState.empty).tickStore) ≤ 1 ∧
    ((MongoManager.save_tick_data stTick [tickMod]).tickStore.length
        = stTick.tickStore.length ∧
      (MongoManager.save_tick_data stTick [tickMod]).tickStore.find?
          (fun r => tickMatches tickMod r)
        = (stTick.tickStore.find? (fun r => tickMatches tickMod r)).map
            (tickUpdate tickMod)) :=
  ⟨save_tick_data_upsert_spec.1 DbState.empty [tick0],
   save_tick_data_upsert_spec.2.1 [[tick0], [tick0]] (tickKey tick0),
   save_tick_data_upsert_spec.2.2 stTick tickMod (by decide)⟩

end Vnpy
